import Mathlib

/-!
Verification of the two conversion utilities in `src/conversion_scripts/`:
`vcf_to_iqtree_genotype_alignment.py` and `fasta2nexus.py`.

The Python code is shallowly embedded: input streams become lists of
newline-stripped line strings, dictionaries become association lists or
update functions, and fallible parsing returns `Option`/`Except`.
Python string operations (`str.strip`, `str.split` with a one-character
separator, `str.startswith`, `str.upper`, `int(...)`, `''.join`,
`str.ljust`-style format padding) are modelled by executable functions on
`List Char`; the models are restricted to ASCII where Python is
Unicode-aware (the repository only feeds ASCII data through them).
-/

/-! ## Python string primitives -/

/-- Whitespace characters stripped by Python's `str.strip()` (ASCII part). -/
def isPyWs (c : Char) : Bool :=
  c == ' ' || c == '\t' || c == '\n' || c == '\r' || c == '\x0b' || c == '\x0c'

/-- `str.strip()` on the character list: drop whitespace from both ends. -/
def stripChars (l : List Char) : List Char :=
  ((l.dropWhile isPyWs).reverse.dropWhile isPyWs).reverse

/-- Python `s.strip()`. -/
def pyStrip (s : String) : String := String.mk (stripChars s.toList)

/-- Helper for `str.startswith`: is the first list an initial segment of the second? -/
def isLeadOf : List Char → List Char → Bool
  | [], _ => true
  | _ :: _, [] => false
  | p :: ps, c :: cs => p == c && isLeadOf ps cs

/-- Python `s.startswith(p)`. -/
def pyStartsWith (s p : String) : Bool := isLeadOf p.toList s.toList

/-- Split a character list on a separator character; always returns at least
one (possibly empty) group, like Python `str.split(sep)`. -/
def splitOnChar (sep : Char) : List Char → List (List Char)
  | [] => [[]]
  | c :: rest =>
    if c = sep then [] :: splitOnChar sep rest
    else
      match splitOnChar sep rest with
      | [] => [[c]]
      | g :: gs => (c :: g) :: gs

/-- Python `s.split(sep)` for a one-character separator (the only form the
scripts use: `"\t"`, `":"`, `"|"`, `"/"`). -/
def pySplit (s : String) (sep : Char) : List String :=
  (splitOnChar sep s.toList).map String.mk

/-- Python `s.upper()` (ASCII letters; the scripts only upcase base letters). -/
def pyUpper (s : String) : String := String.mk (s.toList.map Char.toUpper)

/-- Numeric value of a decimal digit character. -/
def digitVal (c : Char) : Nat := c.toNat - 48

/-- Accumulate decimal digits, allowing single underscores between digits as
Python's `int` does. -/
def digitsVal : List Char → Nat → Option Nat
  | [], acc => some acc
  | '_' :: c :: rest, acc =>
    if c.isDigit then digitsVal rest (acc * 10 + digitVal c) else none
  | ['_'], _ => none
  | c :: rest, acc =>
    if c.isDigit then digitsVal rest (acc * 10 + digitVal c) else none

/-- A nonempty digit run (with optional internal underscores). -/
def natDigits : List Char → Option Nat
  | [] => none
  | c :: rest => if c.isDigit then digitsVal rest (digitVal c) else none

/-- Python `int(s)`: optional surrounding whitespace, optional sign, decimal
digits (ASCII; Python additionally accepts Unicode digits, which never occur
in VCF genotype fields). Returns `none` where Python raises `ValueError`. -/
def pyInt (s : String) : Option Int :=
  match stripChars s.toList with
  | '+' :: rest => (natDigits rest).map (fun n => (n : Int))
  | '-' :: rest => (natDigits rest).map (fun n => -(n : Int))
  | t => (natDigits t).map (fun n => (n : Int))

/-- Python `''.join(chunks)`. -/
def joinStrs (l : List String) : String := String.mk (l.map String.toList).flatten

/-! ## Genotype symbol resolver (`vcf_to_iqtree_genotype_alignment.py`) -/

/-- `PHASED_MAP` from the source: phased genotype key → IQ-TREE symbol. -/
def PHASED_MAP : List (String × String) :=
  [("A|A", "A"), ("C|C", "C"), ("G|G", "G"), ("T|T", "T"),
   ("A|C", "M"), ("A|G", "R"), ("A|T", "W"), ("C|G", "S"), ("C|T", "Y"), ("G|T", "K"),
   ("C|A", "!"), ("G|A", "\""), ("T|A", "#"), ("G|C", "$"), ("T|C", "%"), ("T|G", "&")]

/-- `UNPHASED_MAP` from the source: unphased genotype key → IUPAC symbol. -/
def UNPHASED_MAP : List (String × String) :=
  [("A/A", "A"), ("C/C", "C"), ("G/G", "G"), ("T/T", "T"),
   ("A/C", "M"), ("C/A", "M"),
   ("A/G", "R"), ("G/A", "R"),
   ("A/T", "W"), ("T/A", "W"),
   ("C/G", "S"), ("G/C", "S"),
   ("C/T", "Y"), ("T/C", "Y"),
   ("G/T", "K"), ("T/G", "K")]

/-- Python `dict.get(key, default)` on an association list. -/
def pyGet (mp : List (String × String)) (key deflt : String) : String :=
  (mp.lookup key).getD deflt

/-- The four DNA base letters (as strings, the form the resolver compares). -/
def BASES : List String := ["A", "C", "G", "T"]

/-- The allele-index list the resolver splits a genotype token into:
split on `|` if present, else on `/` if present, else the whole token. -/
def allelesOf (gt : String) : List String :=
  if gt.toList.contains '|' then pySplit gt '|'
  else if gt.toList.contains '/' then pySplit gt '/'
  else [gt]

/-- Phase flag chosen by the resolver: phased iff the token contains `|`. -/
def isPhasedTok (gt : String) : Bool := gt.toList.contains '|'

/-- The allele-index translation loop of `convert_gt_to_symbol`:
`.` → missing char, integer `0` → uppercased REF, integer `1` → uppercased ALT,
anything else aborts the whole resolution (`none`, the Python early return). -/
def translateAlleles (ref alt m : String) : List String → Option (List String)
  | [] => some []
  | a :: rest =>
    if a = "." then (translateAlleles ref alt m rest).map (fun bs => m :: bs)
    else
      match pyInt a with
      | none => none
      | some i =>
        if i = 0 then (translateAlleles ref alt m rest).map (fun bs => pyUpper ref :: bs)
        else if i = 1 then (translateAlleles ref alt m rest).map (fun bs => pyUpper alt :: bs)
        else none

/-- The tail of `convert_gt_to_symbol` after allele translation: the
missing-char check, the haploid case, and the table lookup on the first two
translated bases. -/
def resolveBases (phased : Bool) (m : String) (bs : List String) : String :=
  if bs.any (fun b => b == m) then m
  else
    match bs with
    | [b] => if b = "A" ∨ b = "C" ∨ b = "G" ∨ b = "T" then b else m
    | b1 :: b2 :: _ =>
      pyGet (if phased then PHASED_MAP else UNPHASED_MAP)
        ((b1 ++ (if phased then "|" else "/")) ++ b2) m
    | [] => m

/-- `convert_gt_to_symbol(gt, ref, alt, missing_char)` from the source. -/
def convert_gt_to_symbol (gt ref alt m : String) : String :=
  if gt = "." ∨ gt = "./." ∨ gt = ".|." then m
  else
    match translateAlleles ref alt m (allelesOf gt) with
    | none => m
    | some bs => resolveBases (isPhasedTok gt) m bs

example : convert_gt_to_symbol "0|1" "A" "C" "?" = "M" := by decide
example : convert_gt_to_symbol "1|0" "A" "C" "?" = "!" := by decide
example : convert_gt_to_symbol "0/1" "A" "C" "?" = "M" := by decide
example : convert_gt_to_symbol "1/0" "A" "C" "?" = "M" := by decide
example : convert_gt_to_symbol "." "A" "C" "?" = "?" := by decide
example : convert_gt_to_symbol "./." "A" "C" "?" = "?" := by decide
example : convert_gt_to_symbol "" "A" "C" "?" = "?" := by decide
example : convert_gt_to_symbol "0/2" "A" "C" "?" = "?" := by decide
example : convert_gt_to_symbol "0" "a" "C" "?" = "A" := by decide
example : convert_gt_to_symbol "0|1" "A" "C" "A" = "A" := by decide
example : convert_gt_to_symbol "0|0" "A" "C" "A" = "A" := by decide
example : convert_gt_to_symbol "01|1" "A" "C" "?" = "C" := by decide
example : pyInt " 1 " = some 1 := by decide
example : pyInt "0_0" = some 0 := by decide
example : pyInt "-0" = some 0 := by decide
example : pyInt "" = none := by decide
example : pySplit "a\tb\t" '\t' = ["a", "b", ""] := by decide
example : convert_gt_to_symbol "0|1" "A" "C" "?" =
    resolveBases true "?" [pyUpper "A", pyUpper "C"] := rfl

/-! ## FASTA parser and NEXUS writer (`fasta2nexus.py`) -/

/-- Accumulator of `parse_fasta`'s line loop: the current record name (if a
header has been seen), its pending sequence chunks, and the finished records. -/
structure FastaAcc where
  curName : Option String
  chunks : List String
  recs : List (String × String)

/-- Flush the pending record, as done at each new header and at end of input:
append `(name, ''.join(chunks))` when a record is open, else nothing. -/
def finishFasta (acc : FastaAcc) : List (String × String) :=
  match acc.curName with
  | none => acc.recs
  | some nm => acc.recs ++ [(nm, joinStrs acc.chunks)]

/-- Name carried by a (stripped) header line: `line[1:].strip()`. -/
def headerName (l : String) : String := pyStrip (String.mk (l.toList.drop 1))

/-- One iteration of `parse_fasta`'s loop over a raw input line. -/
def fastaStep (acc : FastaAcc) (line : String) : FastaAcc :=
  let l := pyStrip line
  if l = "" then acc
  else if pyStartsWith l ">" then
    { curName := some (headerName l), chunks := [], recs := finishFasta acc }
  else { acc with chunks := acc.chunks ++ [l] }

/-- The record list `parse_fasta` builds from the input lines (before the
emptiness and equal-length checks). -/
def rawRecords (lines : List String) : List (String × String) :=
  finishFasta (lines.foldl fastaStep ⟨none, [], []⟩)

/-- The distinct sequence lengths of a record list, as Python's
`{len(s) for _, s in recs}` (first-occurrence order stands in for the set). -/
def distinctLengths (recs : List (String × String)) : List Nat :=
  (recs.map (fun r => r.2.length)).dedup

/-- The three failure modes of `parse_fasta`: `FileNotFoundError`,
`ValueError('No sequences found')`, and
`ValueError('Sequences not equal length: ...')` carrying the distinct lengths. -/
inductive FastaError where
  | notFound : FastaError
  | emptyInput : FastaError
  | unequalLength : List Nat → FastaError
deriving DecidableEq

deriving instance DecidableEq for Except

/-- `parse_fasta` over the file content, `none` standing for a missing file. -/
def parse_fasta (input : Option (List String)) :
    Except FastaError (List (String × String)) :=
  match input with
  | none => .error .notFound
  | some lines =>
    if rawRecords lines = [] then .error .emptyInput
    else if (distinctLengths (rawRecords lines)).length ≠ 1 then
      .error (.unequalLength (distinctLengths (rawRecords lines)))
    else .ok (rawRecords lines)

/-- A character admitted unquoted by `quote_taxon`: the class `[A-Za-z0-9_.-]`. -/
def allowedChar (c : Char) : Bool :=
  ('A' ≤ c && c ≤ 'Z') || ('a' ≤ c && c ≤ 'z') || ('0' ≤ c && c ≤ '9') ||
    c == '_' || c == '.' || c == '-'

/-- `t.replace("'", "''")`: double every single quote (one-character needle,
so the replacement is a per-character expansion). -/
def doubleQuotes : List Char → List Char
  | [] => []
  | c :: rest =>
    if c = '\'' then '\'' :: '\'' :: doubleQuotes rest
    else c :: doubleQuotes rest

/-- `quote_taxon` from the source: quote and double embedded quotes iff the
name has a character outside `[A-Za-z0-9_.-]`. -/
def quote_taxon (t : String) : String :=
  if t.toList.all allowedChar then t
  else String.mk ('\'' :: (doubleQuotes t.toList ++ ['\'']))

/-- The inverse step the specification describes: collapse doubled quotes. -/
def undoubleQuotes : List Char → List Char
  | [] => []
  | [c] => [c]
  | c :: d :: rest =>
    if c = '\'' ∧ d = '\'' then '\'' :: undoubleQuotes rest
    else c :: undoubleQuotes (d :: rest)

/-- Strip the outer quotes of a quoted taxon and undouble the inner quotes. -/
def stripOuterQuotes (s : String) : String :=
  String.mk (undoubleQuotes ((s.toList.drop 1).dropLast))

/-- Left-justify to a field of `w` characters, as the `:<30` format spec. -/
def ljust (s : String) (w : Nat) : String :=
  s ++ String.mk (List.replicate (w - s.length) ' ')

/-- The `Dimensions` line emitted by `write_nexus`. -/
def dimensionsLine (ntax nchar : Nat) : String :=
  "    Dimensions ntax=" ++ toString ntax ++ " nchar=" ++ toString nchar ++ ";"

/-- One `Matrix` row of `write_nexus`: four spaces, the quoted name padded to
30 characters, a space, then the raw sequence. -/
def matrixLine (r : String × String) : String :=
  "    " ++ ljust (quote_taxon r.1) 30 ++ " " ++ r.2

/-- The lines `write_nexus` emits; `none` models the `IndexError` the source
would raise on an empty record list (`records[0]`), which `parse_fasta`'s
emptiness check rules out in the actual pipeline. -/
def write_nexus (records : List (String × String)) : Option (List String) :=
  match records with
  | [] => none
  | r0 :: _ =>
    some (["#NEXUS", "Begin data;",
           dimensionsLine records.length r0.2.length,
           "    Format datatype=DNA missing=? gap=-;",
           "    Matrix"]
          ++ (records.map matrixLine ++ ["    ;", "End;"]))

example : rawRecords [">a", "AC", ">b", "GG"] = [("a", "AC"), ("b", "GG")] := by decide
example : parse_fasta (some [">a", "AC", "G"]) = .ok [("a", "ACG")] := by decide
example : parse_fasta (some ["x", "y"]) = .error .emptyInput := by decide
example : parse_fasta (some [">a", "AC", ">b", "G"]) =
    .error (.unequalLength [2, 1]) := by decide
example : quote_taxon "sample1" = "sample1" := by decide
example : quote_taxon "sample 1" = "'sample 1'" := by decide
example : quote_taxon "a'b" = "'a''b'" := by decide
example : stripOuterQuotes "'a''b'" = "a'b" := by decide
example : ljust "ab" 5 = "ab   " := by decide
example : dimensionsLine 2 7 = "    Dimensions ntax=2 nchar=7;" := by decide

/-! ## VCF streaming pipeline (`main` of `vcf_to_iqtree_genotype_alignment.py`) -/

/-- The accumulated state of `main`'s line loop: the sample names from the
`#CHROM` header, the per-sample symbol lists (`seq_lists`, a dictionary
modelled as a total function that is `[]` off its domain), and the two
counters. Each appended symbol is kept as the string the resolver returned. -/
structure VcfState where
  sampleNames : List String
  seqs : String → List String
  totalVariants : Nat
  keptSites : Nat

/-- The state before any line is read. -/
def initState : VcfState := ⟨[], fun _ => [], 0, 0⟩

/-- Sample names declared by a `#CHROM` header line: fields from index 9 on. -/
def headerNames (line : String) : List String := (pySplit line '\t').drop 9

/-- `fmt_keys.index("GT")`, with `None` for the raised `ValueError`. -/
def gtIndex (fmt : String) : Option Nat :=
  (pySplit fmt ':').findIdx? (fun k => k == "GT")

/-- The symbol appended for the sample at position `si` of a kept site:
missing when there is no GT index or no genotype block, else the resolved
GT subfield (a too-short block falls back to the token `"."`). -/
def sampleSym (m : String) (gtIdx : Option Nat) (gts : List String)
    (ref alt : String) (si : Nat) : String :=
  match gtIdx with
  | none => m
  | some gi =>
    if si ≥ gts.length then m
    else
      let fields := pySplit (gts.getD si "") ':'
      let gt_field := if gi < fields.length then fields.getD gi "" else "."
      convert_gt_to_symbol gt_field ref alt m

/-- Pointwise update of the sequence dictionary. -/
def updateSeqs (f : String → List String) (s : String) (v : List String) :
    String → List String :=
  fun n => if n = s then v else f n

/-- The `for si, s in enumerate(sample_names)` append loop of a kept site. -/
def appendAll (sym : Nat → String) (seqs : String → List String) (si : Nat) :
    List String → (String → List String)
  | [] => seqs
  | s :: rest => appendAll sym (updateSeqs seqs s (seqs s ++ [sym si])) (si + 1) rest

/-- Position of a sample name in the header list (its `enumerate` index). -/
def posIn (s : String) : List String → Nat
  | [] => 0
  | t :: rest => if s = t then 0 else posIn s rest + 1

/-- The biallelic-SNP condition on a split data line: ALT (field 4) without a
comma, REF (field 3) and ALT of length 1. -/
def biallelicKeep (parts : List String) : Prop :=
  (parts.getD 4 "").toList.contains ',' = false ∧
    (parts.getD 3 "").length = 1 ∧ (parts.getD 4 "").length = 1

instance (parts : List String) : Decidable (biallelicKeep parts) := by
  unfold biallelicKeep; infer_instance

/-- A data line that only bumps `total_variants` (the `continue` cases). -/
def skipUpdate (st : VcfState) : VcfState :=
  { st with totalVariants := st.totalVariants + 1 }

/-- The state update of a kept biallelic site: bump both counters and append
one resolved symbol per sample, in sample order. -/
def keptUpdate (m : String) (st : VcfState) (parts : List String) : VcfState :=
  { st with totalVariants := st.totalVariants + 1,
            keptSites := st.keptSites + 1,
            seqs := appendAll
              (sampleSym m (gtIndex (parts.getD 8 "")) (parts.drop 9)
                (parts.getD 3 "") (parts.getD 4 ""))
              st.seqs 0 st.sampleNames }

/-- One iteration of `main`'s loop on a raw input line. -/
def processLine (m : String) (st : VcfState) (line : String) : VcfState :=
  if pyStrip line = "" then st
  else if pyStartsWith line "##" then st
  else if pyStartsWith line "#CHROM" then
    { st with sampleNames := headerNames line,
              seqs := fun n => if n ∈ headerNames line then [] else st.seqs n }
  else
    let parts := pySplit line '\t'
    if parts.length < 10 then skipUpdate st
    else if (parts.getD 4 "").toList.contains ',' then skipUpdate st
    else if (parts.getD 3 "").length ≠ 1 ∨ (parts.getD 4 "").length ≠ 1 then skipUpdate st
    else keptUpdate m st parts

/-- `main`'s whole reading loop over the input lines. -/
def processLines (m : String) (st : VcfState) (lines : List String) : VcfState :=
  lines.foldl (processLine m) st

example :
    (processLines "?" initState
      ["##fileformat=VCFv4.2",
       "#CHROM\tPOS\tID\tREF\tALT\tQUAL\tFILTER\tINFO\tFORMAT\tS1\tS2",
       "1\t1\tv\tA\tC\t.\t.\t.\tGT\t0/1\t1|0"]).seqs "S1" = ["M"] := by decide
example :
    (processLines "?" initState
      ["#CHROM\tPOS\tID\tREF\tALT\tQUAL\tFILTER\tINFO\tFORMAT\tS1\tS2",
       "1\t1\tv\tA\tC\t.\t.\t.\tGT\t0/1\t1|0"]).seqs "S2" = ["!"] := by decide
example :
    (processLines "?" initState
      ["#CHROM\tPOS\tID\tREF\tALT\tQUAL\tFILTER\tINFO\tFORMAT\tS1",
       "1\t1\tv\tA\tC,T\t.\t.\t.\tGT\t0/1"]).keptSites = 0 := by decide
example :
    (processLines "?" initState
      ["#CHROM\tPOS\tID\tREF\tALT\tQUAL\tFILTER\tINFO\tFORMAT\tS1",
       "1\t1\tv\tAT\tC\t.\t.\t.\tGT\t0/1"]).seqs "S1" = [] := by decide
example :
    (processLines "?" initState
      ["#CHROM\tPOS\tID\tREF\tALT\tQUAL\tFILTER\tINFO\tFORMAT\tS1",
       "1\t1\tv\tA\tC\t.\t.\t.\tDP\t0/1"]).seqs "S1" = ["?"] := by decide
example :
    (processLines "?" initState
      ["#CHROM\tPOS\tID\tREF\tALT\tQUAL\tFILTER\tINFO\tFORMAT\tS1",
       "1\t1\tv\tA\tC\t.\t.\t.\tGT:DP\t0/1:7"]).seqs "S1" = ["M"] := by decide

/-! ## Helper lemmas about the resolver -/

lemma mem_BASES {x : String} (hx : x ∈ BASES) :
    x = "A" ∨ x = "C" ∨ x = "G" ∨ x = "T" := by
  simpa [BASES] using hx

lemma pyUpper_base {x : String} (hx : x ∈ BASES) : pyUpper x = x := by
  rcases mem_BASES hx with h | h | h | h <;> subst h <;> decide

lemma cv01_phased (x y m : String) :
    convert_gt_to_symbol "0|1" x y m = resolveBases true m [pyUpper x, pyUpper y] := rfl

lemma cv10_phased (x y m : String) :
    convert_gt_to_symbol "1|0" x y m = resolveBases true m [pyUpper y, pyUpper x] := rfl

lemma cv01_unphased (x y m : String) :
    convert_gt_to_symbol "0/1" x y m = resolveBases false m [pyUpper x, pyUpper y] := rfl

lemma cv10_unphased (x y m : String) :
    convert_gt_to_symbol "1/0" x y m = resolveBases false m [pyUpper y, pyUpper x] := rfl

lemma cv00_phased (x y m : String) :
    convert_gt_to_symbol "0|0" x y m = resolveBases true m [pyUpper x, pyUpper x] := rfl

lemma cv11_phased (x y m : String) :
    convert_gt_to_symbol "1|1" x y m = resolveBases true m [pyUpper y, pyUpper y] := rfl

lemma resolveBases_pair_left (ph : Bool) (m b2 : String) :
    resolveBases ph m [m, b2] = m := by
  simp [resolveBases]

lemma resolveBases_pair_right (ph : Bool) (m b1 : String) :
    resolveBases ph m [b1, m] = m := by
  simp [resolveBases]

lemma resolveBases_pair_ne (ph : Bool) (m b1 b2 : String)
    (h1 : b1 ≠ m) (h2 : b2 ≠ m) :
    resolveBases ph m [b1, b2] =
      pyGet (if ph then PHASED_MAP else UNPHASED_MAP)
        ((b1 ++ (if ph then "|" else "/")) ++ b2) m := by
  simp [resolveBases, h1, h2]

lemma unphased_symm_lookup :
    ∀ x ∈ BASES, ∀ y ∈ BASES,
      UNPHASED_MAP.lookup ((x ++ "/") ++ y) =
        UNPHASED_MAP.lookup ((y ++ "/") ++ x) := by decide

lemma phased_het_lookup_ne :
    ∀ x ∈ BASES, ∀ y ∈ BASES, x ≠ y →
      PHASED_MAP.lookup ((x ++ "|") ++ y) ≠
        PHASED_MAP.lookup ((y ++ "|") ++ x) := by decide

lemma phased_lookup_isSome :
    ∀ x ∈ BASES, ∀ y ∈ BASES,
      (PHASED_MAP.lookup ((x ++ "|") ++ y)).isSome = true := by decide

lemma phased_homo_lookup :
    ∀ x ∈ BASES, PHASED_MAP.lookup ((x ++ "|") ++ x) = some x := by decide

/-- Allele-index strings the translation loop rejects: not the literal `.`,
and not parsing to the integer `0` or `1`. -/
def badAlleleIdx (a : String) : Prop :=
  a ≠ "." ∧ pyInt a ≠ some 0 ∧ pyInt a ≠ some 1

instance (a : String) : Decidable (badAlleleIdx a) := by
  unfold badAlleleIdx; infer_instance

lemma translate_bad {ref alt m : String} :
    ∀ l : List String, (∃ a ∈ l, badAlleleIdx a) →
      translateAlleles ref alt m l = none := by
  intro l
  induction l with
  | nil => rintro ⟨a, ha, -⟩; cases ha
  | cons a rest ih =>
    rintro ⟨b, hb, hbad⟩
    rcases List.mem_cons.mp hb with hba | hbr
    · subst hba
      rw [translateAlleles, if_neg hbad.1]
      cases hpy : pyInt b with
      | none => rfl
      | some i =>
        rcases hbad with ⟨-, h0, h1⟩
        have hi0 : ¬ i = 0 := fun h => h0 (by rw [hpy, h])
        have hi1 : ¬ i = 1 := fun h => h1 (by rw [hpy, h])
        simp [hi0, hi1]
    · have hnone := ih ⟨b, hbr, hbad⟩
      rw [translateAlleles]
      by_cases hdot : a = "."
      · simp [hdot, hnone]
      · rw [if_neg hdot]
        cases hpy : pyInt a with
        | none => rfl
        | some i =>
          by_cases hi0 : i = 0
          · simp [hi0, hnone]
          · by_cases hi1 : i = 1
            · simp [hi0, hi1, hnone]
            · simp [hi0, hi1]

/-! ## Claim C2: missing and unsupported genotype tokens -/

/-- C2: for every missing character `m` and every REF/ALT pair, the resolver
returns `m` on the tokens `""`, `"."`, `"./."` and `".|."`; and whenever the
token contains an allele index that is not `.` and does not parse to the
integer 0 or 1 (any other integer, or a non-integer string), the resolver
returns `m`. -/
theorem resolver_missing_and_invalid (ref alt m : String) :
    (convert_gt_to_symbol "" ref alt m = m ∧
     convert_gt_to_symbol "." ref alt m = m ∧
     convert_gt_to_symbol "./." ref alt m = m ∧
     convert_gt_to_symbol ".|." ref alt m = m) ∧
    (∀ gt, (∃ a ∈ allelesOf gt, badAlleleIdx a) →
      convert_gt_to_symbol gt ref alt m = m) := by
  constructor
  · exact ⟨rfl, rfl, rfl, rfl⟩
  · intro gt hex
    by_cases hearly : gt = "." ∨ gt = "./." ∨ gt = ".|."
    · simp [convert_gt_to_symbol, hearly]
    · simp [convert_gt_to_symbol, hearly, translate_bad _ hex]

/-- Witness for C2 at concrete inputs: the multiallelic token `0/2`. -/
theorem resolver_missing_and_invalid_witness :
    convert_gt_to_symbol "0/2" "A" "C" "?" = "?" :=
  (resolver_missing_and_invalid "A" "C" "?").2 "0/2" (by decide)

/-! ## Claim C1: phase sensitivity of the encoding -/

/-- C1 counterexample: the claim's equation `resolve("0|1","A","C",m) = "M"`
fails for the missing character `m = "A"`: the resolver's missing-char check
fires on the translated REF base and returns `"A"`. -/
theorem resolver_phase_claim_counterexample :
    convert_gt_to_symbol "0|1" "A" "C" "A" ≠ "M" := by decide

/-- C1 (amended): provided the missing character differs from the two
(uppercased) bases involved, `resolve("0|1","A","C",m) = "M"` and
`resolve("1|0","A","C",m) = "!"` (distinct symbols), while both unphased
orders give `"M"`; in general, for bases x,y in A,C,G,T, unphased
heterozygous resolution is order-insensitive (unconditionally), phased
heterozygous resolution is order-sensitive when the missing character is not
one of the two bases, and phased homozygous tokens resolve to the base
itself. -/
theorem resolver_phase_encoding_amended (m : String) :
    (m ≠ "A" → m ≠ "C" →
      convert_gt_to_symbol "0|1" "A" "C" m = "M" ∧
      convert_gt_to_symbol "1|0" "A" "C" m = "!" ∧
      ("M" : String) ≠ "!" ∧
      convert_gt_to_symbol "0/1" "A" "C" m = "M" ∧
      convert_gt_to_symbol "1/0" "A" "C" m = "M") ∧
    (∀ x ∈ BASES, ∀ y ∈ BASES,
      convert_gt_to_symbol "0/1" x y m = convert_gt_to_symbol "1/0" x y m ∧
      (x ≠ y → m ≠ x → m ≠ y →
        convert_gt_to_symbol "0|1" x y m ≠ convert_gt_to_symbol "1|0" x y m) ∧
      convert_gt_to_symbol "0|0" x y m = x ∧
      convert_gt_to_symbol "1|1" x y m = y) := by
  constructor
  · intro hA hC
    have uA : pyUpper "A" = "A" := by decide
    have uC : pyUpper "C" = "C" := by decide
    refine ⟨?_, ?_, by decide, ?_, ?_⟩
    · rw [cv01_phased, uA, uC,
        resolveBases_pair_ne true m "A" "C" (Ne.symm hA) (Ne.symm hC)]
      rfl
    · rw [cv10_phased, uA, uC,
        resolveBases_pair_ne true m "C" "A" (Ne.symm hC) (Ne.symm hA)]
      rfl
    · rw [cv01_unphased, uA, uC,
        resolveBases_pair_ne false m "A" "C" (Ne.symm hA) (Ne.symm hC)]
      rfl
    · rw [cv10_unphased, uA, uC,
        resolveBases_pair_ne false m "C" "A" (Ne.symm hC) (Ne.symm hA)]
      rfl
  · intro x hx y hy
    have ux := pyUpper_base hx
    have uy := pyUpper_base hy
    refine ⟨?_, ?_, ?_, ?_⟩
    · rw [cv01_unphased, cv10_unphased, ux, uy]
      by_cases h1 : x = m
      · subst h1; rw [resolveBases_pair_left, resolveBases_pair_right]
      · by_cases h2 : y = m
        · subst h2; rw [resolveBases_pair_right, resolveBases_pair_left]
        · rw [resolveBases_pair_ne false m x y h1 h2,
            resolveBases_pair_ne false m y x h2 h1]
          simp only [pyGet, if_neg Bool.false_ne_true]
          rw [unphased_symm_lookup x hx y hy]
    · intro hxy hm1 hm2
      rw [cv01_phased, cv10_phased, ux, uy,
        resolveBases_pair_ne true m x y (Ne.symm hm1) (Ne.symm hm2),
        resolveBases_pair_ne true m y x (Ne.symm hm2) (Ne.symm hm1)]
      simp only [pyGet, if_pos rfl, if_true]
      obtain ⟨vx, hvx⟩ := Option.isSome_iff_exists.mp (phased_lookup_isSome x hx y hy)
      obtain ⟨vy, hvy⟩ := Option.isSome_iff_exists.mp (phased_lookup_isSome y hy x hx)
      rw [hvx, hvy, Option.getD_some, Option.getD_some]
      exact fun h => phased_het_lookup_ne x hx y hy hxy (by rw [hvx, hvy, h])
    · rw [cv00_phased, ux]
      by_cases hxm : x = m
      · rw [← hxm] at *
        rw [resolveBases_pair_left]
      · rw [resolveBases_pair_ne true m x x hxm hxm]
        simp only [pyGet, if_pos rfl, if_true]
        rw [phased_homo_lookup x hx, Option.getD_some]
    · rw [cv11_phased, uy]
      by_cases hym : y = m
      · rw [← hym] at *
        rw [resolveBases_pair_left]
      · rw [resolveBases_pair_ne true m y y hym hym]
        simp only [pyGet, if_pos rfl, if_true]
        rw [phased_homo_lookup y hy, Option.getD_some]

/-- Witness for the amended C1 at concrete inputs (missing char `?`). -/
theorem resolver_phase_encoding_amended_witness :
    convert_gt_to_symbol "0|1" "A" "C" "?" = "M" ∧
    convert_gt_to_symbol "1|0" "A" "C" "?" = "!" ∧
    convert_gt_to_symbol "0|1" "A" "G" "?" ≠ convert_gt_to_symbol "1|0" "A" "G" "?" :=
  ⟨((resolver_phase_encoding_amended "?").1 (by decide) (by decide)).1,
   ((resolver_phase_encoding_amended "?").1 (by decide) (by decide)).2.1,
   (((resolver_phase_encoding_amended "?").2 "A" (by decide) "G"
      (by decide)).2.1 (by decide) (by decide) (by decide))⟩

/-! ## Claim C3: shape of the two encoding tables -/

/-- C3: both tables have exactly the 16 ordered pairs over A,C,G,T as keys
(with `|` resp. `/` as separator), homozygous keys map to the base itself,
the twelve phased heterozygous entries carry twelve pairwise-distinct
symbols, and the unphased table is symmetric in the two orders of each
heterozygous combination. -/
theorem genotype_tables_wellformed :
    PHASED_MAP.length = 16 ∧ (PHASED_MAP.map Prod.fst).Nodup ∧
    (BASES.all (fun x => BASES.all (fun y =>
        (PHASED_MAP.map Prod.fst).contains ((x ++ "|") ++ y))) = true) ∧
    UNPHASED_MAP.length = 16 ∧ (UNPHASED_MAP.map Prod.fst).Nodup ∧
    (BASES.all (fun x => BASES.all (fun y =>
        (UNPHASED_MAP.map Prod.fst).contains ((x ++ "/") ++ y))) = true) ∧
    (BASES.all (fun x =>
        PHASED_MAP.lookup ((x ++ "|") ++ x) == some x &&
        UNPHASED_MAP.lookup ((x ++ "/") ++ x) == some x) = true) ∧
    ((PHASED_MAP.filter
        (fun e => !(["A|A", "C|C", "G|G", "T|T"].contains e.1))).map Prod.snd).Nodup ∧
    ((PHASED_MAP.filter
        (fun e => !(["A|A", "C|C", "G|G", "T|T"].contains e.1))).map Prod.snd).length = 12 ∧
    (BASES.all (fun x => BASES.all (fun y =>
        UNPHASED_MAP.lookup ((x ++ "/") ++ y) ==
          UNPHASED_MAP.lookup ((y ++ "/") ++ x))) = true) := by
  decide

/-! ## Helper lemmas about the VCF line loop -/

lemma isLeadOf_cons {p : Char} {ps l : List Char} (h : isLeadOf (p :: ps) l = true) :
    ∃ cs, l = p :: cs ∧ isLeadOf ps cs = true := by
  cases l with
  | nil => simp [isLeadOf] at h
  | cons c cs =>
    rw [isLeadOf, Bool.and_eq_true] at h
    have hpc : p = c := by simpa using h.1
    exact ⟨cs, by rw [hpc], h.2⟩

lemma chrom_shape {l : String} (h : pyStartsWith l "#CHROM" = true) :
    ∃ cs, l.toList = '#' :: 'C' :: cs := by
  rw [pyStartsWith, show ("#CHROM".toList) = '#' :: 'C' :: ['H', 'R', 'O', 'M'] from rfl] at h
  obtain ⟨cs1, hcs1, h1⟩ := isLeadOf_cons h
  obtain ⟨cs2, hcs2, -⟩ := isLeadOf_cons h1
  exact ⟨cs2, by rw [hcs1, hcs2]⟩

lemma chrom_not_blank {l : String} (h : pyStartsWith l "#CHROM" = true) :
    pyStrip l ≠ "" := by
  obtain ⟨cs, hcs⟩ := chrom_shape h
  intro hcontra
  have hnil : stripChars l.toList = [] := congrArg String.toList hcontra
  rw [hcs] at hnil
  rw [stripChars, show List.dropWhile isPyWs ('#' :: 'C' :: cs) = '#' :: 'C' :: cs from by
    rw [List.dropWhile_cons_of_neg (by decide)]] at hnil
  have hall := List.dropWhile_eq_nil_iff.mp (List.reverse_eq_nil_iff.mp hnil)
  have : isPyWs '#' = true :=
    hall '#' (List.mem_reverse.mpr (List.mem_cons_self _ _))
  exact absurd this (by decide)

lemma chrom_not_meta {l : String} (h : pyStartsWith l "#CHROM" = true) :
    pyStartsWith l "##" = false := by
  obtain ⟨cs, hcs⟩ := chrom_shape h
  rw [pyStartsWith, show ("##".toList) = ['#', '#'] from rfl, hcs]
  simp [isLeadOf]

lemma appendAll_not_mem {sym : Nat → String} {s : String} :
    ∀ (names : List String) (seqs : String → List String) (k : Nat),
      s ∉ names → appendAll sym seqs k names s = seqs s := by
  intro names
  induction names with
  | nil => intro seqs k _; rfl
  | cons t rest ih =>
    intro seqs k hs
    have hst : s ≠ t := fun h => hs (h ▸ List.mem_cons_self t rest)
    rw [appendAll, ih _ _ (fun h => hs (List.mem_cons_of_mem t h))]
    simp [updateSeqs, hst]

lemma appendAll_mem {sym : Nat → String} {s : String} :
    ∀ (names : List String) (seqs : String → List String) (k : Nat),
      names.Nodup → s ∈ names →
      appendAll sym seqs k names s = seqs s ++ [sym (k + posIn s names)] := by
  intro names
  induction names with
  | nil => intro seqs k _ h; cases h
  | cons t rest ih =>
    intro seqs k hnd hmem
    rcases List.mem_cons.mp hmem with hst | hsr
    · have hnr : s ∉ rest := by
        rw [hst]; exact (List.nodup_cons.mp hnd).1
      rw [appendAll, appendAll_not_mem rest _ _ hnr]
      simp [updateSeqs, posIn, hst]
    · have hst : s ≠ t := by
        intro h; rw [h] at hsr; exact (List.nodup_cons.mp hnd).1 hsr
      rw [appendAll, ih _ _ (List.nodup_cons.mp hnd).2 hsr]
      simp only [updateSeqs, if_neg hst, posIn, if_neg hst]
      have harith : k + (posIn s rest + 1) = k + 1 + posIn s rest := by omega
      rw [harith]

lemma processLine_blank {m : String} {st : VcfState} {line : String}
    (h : pyStrip line = "") : processLine m st line = st := by
  rw [processLine, if_pos h]

lemma processLine_meta {m : String} {st : VcfState} {line : String}
    (h : pyStartsWith line "##" = true) : processLine m st line = st := by
  by_cases hb : pyStrip line = ""
  · exact processLine_blank hb
  · rw [processLine, if_neg hb, if_pos h]

lemma processLine_header (m : String) (st : VcfState) {line : String}
    (h : pyStartsWith line "#CHROM" = true) :
    processLine m st line =
      { st with sampleNames := headerNames line,
                seqs := fun n => if n ∈ headerNames line then [] else st.seqs n } := by
  rw [processLine, if_neg (chrom_not_blank h), if_neg (by simp [chrom_not_meta h]),
    if_pos h]

lemma processLine_data {m : String} {st : VcfState} {line : String}
    (hb : pyStrip line ≠ "") (hm : pyStartsWith line "##" = false)
    (hc : pyStartsWith line "#CHROM" = false) :
    processLine m st line =
      (if (pySplit line '\t').length < 10 then skipUpdate st
       else if ((pySplit line '\t').getD 4 "").toList.contains ',' then skipUpdate st
       else if ((pySplit line '\t').getD 3 "").length ≠ 1 ∨
                ((pySplit line '\t').getD 4 "").length ≠ 1 then skipUpdate st
       else keptUpdate m st (pySplit line '\t')) := by
  rw [processLine, if_neg hb, if_neg (by simp [hm]), if_neg (by simp [hc])]

/-! ## Claim C4: biallelic site filtering -/

/-- C4: a data line with at least 10 tab-separated fields is kept (the
kept-site counter is incremented) iff its ALT field has no comma and REF and
ALT both have length 1; a line failing the test changes no sample's sequence
and leaves the kept-site count unchanged. -/
theorem vcf_biallelic_site_filter (m : String) (st : VcfState) (line : String)
    (hb : pyStrip line ≠ "") (hm : pyStartsWith line "##" = false)
    (hc : pyStartsWith line "#CHROM" = false)
    (hn : 10 ≤ (pySplit line '\t').length) :
    ((processLine m st line).keptSites = st.keptSites + 1 ↔
      biallelicKeep (pySplit line '\t')) ∧
    (¬ biallelicKeep (pySplit line '\t') →
      (processLine m st line).keptSites = st.keptSites ∧
      ∀ s, (processLine m st line).seqs s = st.seqs s) := by
  rw [processLine_data hb hm hc, if_neg (by omega)]
  by_cases hcomma : ((pySplit line '\t').getD 4 "").toList.contains ',' = true
  · rw [if_pos hcomma]
    constructor
    · constructor
      · intro h; exact absurd h (by simp [skipUpdate])
      · intro h; rw [h.1] at hcomma; exact absurd hcomma (by decide)
    · intro _; exact ⟨rfl, fun s => rfl⟩
  · rw [if_neg hcomma]
    by_cases hlen : ((pySplit line '\t').getD 3 "").length ≠ 1 ∨
        ((pySplit line '\t').getD 4 "").length ≠ 1
    · rw [if_pos hlen]
      constructor
      · constructor
        · intro h; exact absurd h (by simp [skipUpdate])
        · rintro ⟨-, h3, h4⟩
          rcases hlen with h | h <;> [exact absurd h3 h; exact absurd h4 h]
      · intro _; exact ⟨rfl, fun s => rfl⟩
    · rw [if_neg hlen]
      push_neg at hlen
      have hkeep : biallelicKeep (pySplit line '\t') :=
        ⟨by simpa using hcomma, hlen.1, hlen.2⟩
      constructor
      · simp [keptUpdate, hkeep]
      · intro h; exact absurd hkeep h

/-- Witness for C4: a line with REF of length 2 is dropped without a column. -/
theorem vcf_biallelic_site_filter_witness :
    (processLine "?" initState "1\t2\tv\tAT\tC\tq\tf\ti\tGT\t0/1").keptSites = 0 ∧
    (processLine "?" initState "1\t2\tv\tAT\tC\tq\tf\ti\tGT\t0/1").seqs "S1" = [] := by
  have h := (vcf_biallelic_site_filter "?" initState "1\t2\tv\tAT\tC\tq\tf\ti\tGT\t0/1"
    (by decide) (by decide) (by decide) (by decide)).2 (by decide)
  exact ⟨h.1, h.2 "S1"⟩

/-! ## Claim C5: per-sample alignment length equals kept-site count -/

lemma processLine_nonheader_names (m : String) (st : VcfState) (line : String)
    (hc : pyStartsWith line "#CHROM" = false) :
    (processLine m st line).sampleNames = st.sampleNames := by
  by_cases hb : pyStrip line = ""
  · rw [processLine_blank hb]
  · by_cases hmm : pyStartsWith line "##" = true
    · rw [processLine_meta hmm]
    · rw [processLine_data hb (by simpa using hmm) hc]
      split
      · rfl
      · split
        · rfl
        · split
          · rfl
          · rfl

lemma processLine_nonheader_inv (m : String) (st : VcfState) (line : String)
    (hc : pyStartsWith line "#CHROM" = false)
    (hnd : st.sampleNames.Nodup)
    (hinv : ∀ s ∈ st.sampleNames, (st.seqs s).length = st.keptSites) :
    ∀ s ∈ st.sampleNames,
      ((processLine m st line).seqs s).length = (processLine m st line).keptSites := by
  intro s hs
  by_cases hb : pyStrip line = ""
  · rw [processLine_blank hb]; exact hinv s hs
  · by_cases hmm : pyStartsWith line "##" = true
    · rw [processLine_meta hmm]; exact hinv s hs
    · rw [processLine_data hb (by simpa using hmm) hc]
      split
      · exact hinv s hs
      · split
        · exact hinv s hs
        · split
          · exact hinv s hs
          · show ((keptUpdate m st _).seqs s).length = _
            rw [keptUpdate]
            simp only
            rw [appendAll_mem st.sampleNames st.seqs 0 hnd hs,
              List.length_append, hinv s hs]
            rfl

lemma processLines_pre {m : String} :
    ∀ (pre : List String) (st : VcfState),
      (∀ l ∈ pre, pyStrip l = "" ∨ pyStartsWith l "##" = true) →
      processLines m st pre = st := by
  intro pre
  induction pre with
  | nil => intro st _; rfl
  | cons l rest ih =>
    intro st h
    have hstep : processLine m st l = st := by
      rcases h l (List.mem_cons_self l rest) with h1 | h2
      · exact processLine_blank h1
      · exact processLine_meta h2
    rw [processLines, List.foldl_cons, hstep]
    exact ih st (fun l2 hl2 => h l2 (List.mem_cons_of_mem l hl2))

lemma processLines_post_inv (m : String) :
    ∀ (post : List String) (st : VcfState),
      (∀ l ∈ post, pyStartsWith l "#CHROM" = false) →
      st.sampleNames.Nodup →
      (∀ s ∈ st.sampleNames, (st.seqs s).length = st.keptSites) →
      ((processLines m st post).sampleNames = st.sampleNames ∧
       ∀ s ∈ (processLines m st post).sampleNames,
         ((processLines m st post).seqs s).length = (processLines m st post).keptSites) := by
  intro post
  induction post with
  | nil => intro st _ _ hinv; exact ⟨rfl, hinv⟩
  | cons l rest ih =>
    intro st h hnd hinv
    have hcl : pyStartsWith l "#CHROM" = false := h l (List.mem_cons_self l rest)
    have hnames := processLine_nonheader_names m st l hcl
    have hinv2 := processLine_nonheader_inv m st l hcl hnd hinv
    have := ih (processLine m st l)
      (fun l2 hl2 => h l2 (List.mem_cons_of_mem l hl2))
      (by rw [hnames]; exact hnd)
      (by rw [hnames]; exact hinv2)
    rw [processLines, List.foldl_cons]
    refine ⟨?_, this.2⟩
    calc (List.foldl (processLine m) (processLine m st l) rest).sampleNames
        = (processLine m st l).sampleNames := this.1
      _ = st.sampleNames := hnames

/-- C5: for a VCF stream (metadata/blank lines, then a `#CHROM` header with
pairwise-distinct sample names, then lines none of which is another header),
once the stream is exhausted every declared sample's symbol list has exactly
`keptSites` entries; moreover a data line with fewer than 10 fields changes
neither the counters nor any sequence, a kept site appends exactly one symbol
per sample (at the sample's header position), and that symbol is the missing
character when FORMAT has no `GT` token or the sample's genotype block is
shorter than the `GT` index. -/
theorem vcf_alignment_invariant (m : String) (pre : List String) (hdr : String)
    (post : List String)
    (hpre : ∀ l ∈ pre, pyStrip l = "" ∨ pyStartsWith l "##" = true)
    (hhdr : pyStartsWith hdr "#CHROM" = true)
    (hpost : ∀ l ∈ post, pyStartsWith l "#CHROM" = false)
    (hnd : (headerNames hdr).Nodup) :
    ((processLines m initState (pre ++ hdr :: post)).sampleNames = headerNames hdr ∧
     ∀ s ∈ (processLines m initState (pre ++ hdr :: post)).sampleNames,
       ((processLines m initState (pre ++ hdr :: post)).seqs s).length =
         (processLines m initState (pre ++ hdr :: post)).keptSites) ∧
    (∀ (st : VcfState) (line : String),
      pyStrip line ≠ "" → pyStartsWith line "##" = false →
      pyStartsWith line "#CHROM" = false →
      (pySplit line '\t').length < 10 →
      (processLine m st line).keptSites = st.keptSites ∧
      ∀ s, (processLine m st line).seqs s = st.seqs s) ∧
    (∀ (st : VcfState) (line : String),
      pyStrip line ≠ "" → pyStartsWith line "##" = false →
      pyStartsWith line "#CHROM" = false →
      10 ≤ (pySplit line '\t').length →
      biallelicKeep (pySplit line '\t') →
      st.sampleNames.Nodup →
      (processLine m st line).keptSites = st.keptSites + 1 ∧
      ∀ s ∈ st.sampleNames,
        (processLine m st line).seqs s =
          st.seqs s ++ [sampleSym m (gtIndex ((pySplit line '\t').getD 8 ""))
            ((pySplit line '\t').drop 9) ((pySplit line '\t').getD 3 "")
            ((pySplit line '\t').getD 4 "") (posIn s st.sampleNames)]) ∧
    (∀ (gts : List String) (ref alt : String) (si : Nat),
      sampleSym m none gts ref alt si = m ∧
      (∀ gi, si < gts.length → (pySplit (gts.getD si "") ':').length ≤ gi →
        sampleSym m (some gi) gts ref alt si = m)) := by
  refine ⟨?_, ?_, ?_, ?_⟩
  · have hsplit : processLines m initState (pre ++ hdr :: post) =
        processLines m (processLine m initState hdr) post := by
      rw [processLines, List.foldl_append,
        show List.foldl (processLine m) initState pre = initState from
          processLines_pre pre initState hpre,
        List.foldl_cons]
      rfl
    have hH := processLine_header m initState hhdr
    have hinv0 : ∀ s ∈ (processLine m initState hdr).sampleNames,
        ((processLine m initState hdr).seqs s).length =
          (processLine m initState hdr).keptSites := by
      rw [hH]
      intro s hs
      simp only
      rw [if_pos hs]
      rfl
    have hnd0 : (processLine m initState hdr).sampleNames.Nodup := by
      rw [hH]; exact hnd
    have hmain := processLines_post_inv m post (processLine m initState hdr)
      hpost hnd0 hinv0
    rw [hsplit]
    refine ⟨?_, hmain.2⟩
    rw [hmain.1, hH]
  · intro st line hb hm2 hc hlt
    rw [processLine_data hb hm2 hc, if_pos hlt]
    exact ⟨rfl, fun s => rfl⟩
  · intro st line hb hm2 hc hge hkeep hnds
    rw [processLine_data hb hm2 hc, if_neg (by omega),
      if_neg (by rw [hkeep.1]; exact Bool.false_ne_true),
      if_neg (by push_neg; exact ⟨hkeep.2.1, hkeep.2.2⟩)]
    refine ⟨rfl, ?_⟩
    intro s hs
    show appendAll _ st.seqs 0 st.sampleNames s = _
    rw [appendAll_mem st.sampleNames st.seqs 0 hnds hs, Nat.zero_add]
  · intro gts ref alt si
    refine ⟨rfl, ?_⟩
    intro gi h1 h2
    rw [sampleSym, if_neg (by omega)]
    simp only
    rw [if_neg (by omega)]
    rfl

/-- Witness for C5 on a concrete two-sample, one-site VCF stream. -/
theorem vcf_alignment_invariant_witness :
    ((processLines "?" initState
        ["##m", "#CHROM\tP\tI\tR\tA\tQ\tF\tN\tFMT\tS1\tS2",
         "1\t1\tv\tA\tC\t.\t.\t.\tGT\t0/1\t1|0"]).seqs "S1").length =
      (processLines "?" initState
        ["##m", "#CHROM\tP\tI\tR\tA\tQ\tF\tN\tFMT\tS1\tS2",
         "1\t1\tv\tA\tC\t.\t.\t.\tGT\t0/1\t1|0"]).keptSites := by
  have h := vcf_alignment_invariant "?" ["##m"]
    "#CHROM\tP\tI\tR\tA\tQ\tF\tN\tFMT\tS1\tS2"
    ["1\t1\tv\tA\tC\t.\t.\t.\tGT\t0/1\t1|0"]
    (by decide) (by decide) (by decide) (by decide)
  exact h.1.2 "S1" (by rw [h.1.1]; decide)

/-! ## Claim C7: taxon quoting and its reversibility -/

lemma doubleQuotes_eq_nil {l : List Char} (h : doubleQuotes l = []) : l = [] := by
  cases l with
  | nil => rfl
  | cons c rest =>
    rw [doubleQuotes] at h
    by_cases hc : c = '\''
    · rw [if_pos hc] at h; cases h
    · rw [if_neg hc] at h; cases h

lemma undouble_double : ∀ l : List Char, undoubleQuotes (doubleQuotes l) = l := by
  intro l
  induction l with
  | nil => rfl
  | cons c rest ih =>
    rw [doubleQuotes]
    by_cases hc : c = '\''
    · subst hc
      rw [if_pos rfl, undoubleQuotes, if_pos ⟨rfl, rfl⟩, ih]
    · rw [if_neg hc]
      cases hd : doubleQuotes rest with
      | nil =>
        rw [doubleQuotes_eq_nil hd, undoubleQuotes]
      | cons d ds =>
        rw [undoubleQuotes, if_neg (fun hand => hc hand.1), ← hd, ih]

/-- C7: a taxon name made only of characters in `[A-Za-z0-9_.-]` passes
through `quote_taxon` unchanged; any other name is wrapped in single quotes
with embedded quotes doubled, and stripping the outer quotes and undoubling
the inner quotes recovers the original name. -/
theorem quote_taxon_roundtrip (t : String) :
    (t.toList.all allowedChar = true → quote_taxon t = t) ∧
    (t.toList.all allowedChar = false →
      quote_taxon t = String.mk ('\'' :: (doubleQuotes t.toList ++ ['\''])) ∧
      stripOuterQuotes (quote_taxon t) = t) := by
  constructor
  · intro h; rw [quote_taxon, if_pos h]
  · intro h
    have hq : quote_taxon t = String.mk ('\'' :: (doubleQuotes t.toList ++ ['\''])) := by
      rw [quote_taxon, if_neg (by rw [h]; exact Bool.false_ne_true)]
    refine ⟨hq, ?_⟩
    rw [hq]
    show String.mk (undoubleQuotes
      ((('\'' :: (doubleQuotes t.toList ++ ['\''])).drop 1).dropLast)) = t
    rw [show ('\'' :: (doubleQuotes t.toList ++ ['\''])).drop 1 =
        doubleQuotes t.toList ++ ['\''] from rfl,
      show (doubleQuotes t.toList ++ ['\'']).dropLast = doubleQuotes t.toList from by
        simp,
      undouble_double]
    rfl

/-- Witness for C7 at the specification's own examples. -/
theorem quote_taxon_roundtrip_witness :
    quote_taxon "sample1" = "sample1" ∧
    stripOuterQuotes (quote_taxon "a'b") = "a'b" :=
  ⟨(quote_taxon_roundtrip "sample1").1 (by decide),
   ((quote_taxon_roundtrip "a'b").2 (by decide)).2⟩

/-! ## Claim C8: the Dimensions line -/

/-- C8: for a non-empty, equal-length record list, the third emitted line is
the `Dimensions` line with `ntax` the record count and `nchar` the length of
the first record's sequence (the shared length). -/
theorem write_nexus_dimensions (r0 : String × String) (rest : List (String × String))
    (heq : ∀ r ∈ r0 :: rest, r.2.length = r0.2.length) :
    (write_nexus (r0 :: rest)).isSome = true ∧
    ((write_nexus (r0 :: rest)).getD []).get? 2 =
      some (dimensionsLine (r0 :: rest).length r0.2.length) :=
  ⟨rfl, rfl⟩

/-- Witness for C8 on a concrete two-record list. -/
theorem write_nexus_dimensions_witness :
    ((write_nexus [("a", "ACGT"), ("b", "ACGA")]).getD []).get? 2 =
      some (dimensionsLine 2 4) :=
  (write_nexus_dimensions ("a", "ACGT") [("b", "ACGA")] (by decide)).2

/-! ## Claim C9: matrix rows carry the sequence verbatim -/

/-- C9: row `i` of the Matrix section (line index `5 + i`) is exactly four
spaces, the quoted name left-justified to 30 characters, one space, then the
record's sequence string unchanged — no case change, no `U`→`T`, and gap and
missing characters untouched. -/
theorem write_nexus_matrix_verbatim (r0 : String × String)
    (rest : List (String × String)) (i : Nat) (hi : i < (r0 :: rest).length) :
    ((write_nexus (r0 :: rest)).getD []).get? (5 + i) =
      some ("    " ++ ljust (quote_taxon ((r0 :: rest).get ⟨i, hi⟩).1) 30 ++ " " ++
        ((r0 :: rest).get ⟨i, hi⟩).2) := by
  show (["#NEXUS", "Begin data;",
         dimensionsLine (r0 :: rest).length r0.2.length,
         "    Format datatype=DNA missing=? gap=-;",
         "    Matrix"]
        ++ ((r0 :: rest).map matrixLine ++ ["    ;", "End;"])).get? (5 + i) = _
  rw [List.get?_append_right (by simp only [List.length_cons, List.length_nil]; omega)]
  rw [show 5 + i - (["#NEXUS", "Begin data;",
      dimensionsLine (r0 :: rest).length r0.2.length,
      "    Format datatype=DNA missing=? gap=-;",
      "    Matrix"] : List String).length = i from by
    simp only [List.length_cons, List.length_nil]; omega]
  rw [List.get?_append (by simpa using hi), List.get?_map, List.get?_eq_get hi]
  rfl

/-- Witness for C9 on a one-record list with gap and missing characters. -/
theorem write_nexus_matrix_verbatim_witness :
    ((write_nexus [("a b", "AC-?T")]).getD []).get? 5 =
      some ("    " ++ ljust (quote_taxon "a b") 30 ++ " " ++ "AC-?T") :=
  write_nexus_matrix_verbatim ("a b", "AC-?T") [] 0 (by decide)

/-! ## Claim C6: failure modes of the FASTA parser -/

lemma dedup_all_eq {a : Nat} :
    ∀ l : List Nat, l ≠ [] → (∀ x ∈ l, x = a) → l.dedup = [a] := by
  intro l
  induction l with
  | nil => intro h _; exact absurd rfl h
  | cons x xs ih =>
    intro _ hall
    have hxa : x = a := hall x (List.mem_cons_self _ _)
    cases hxs : xs with
    | nil => rw [hxa]; simp
    | cons y ys =>
      have hy : y = a := hall y (by
        rw [hxs]; exact List.mem_cons_of_mem _ (List.mem_cons_self _ _))
      have hmem : x ∈ y :: ys := by
        rw [hxa, ← hy]; exact List.mem_cons_self _ _
      rw [List.dedup_cons_of_mem hmem]
      have htail := ih (by rw [hxs]; exact List.cons_ne_nil y ys)
        (fun z hz => hall z (List.mem_cons_of_mem _ hz))
      rw [hxs] at htail
      exact htail

lemma distinct_singleton (r0 : String × String) (rest : List (String × String)) :
    (distinctLengths (r0 :: rest)).length = 1 ↔
      ∀ r ∈ r0 :: rest, r.2.length = r0.2.length := by
  constructor
  · intro h
    obtain ⟨b, hb⟩ : ∃ b, ((r0 :: rest).map (fun r => r.2.length)).dedup = [b] := by
      cases hd : ((r0 :: rest).map (fun r => r.2.length)).dedup with
      | nil => rw [distinctLengths, hd] at h; cases h
      | cons b bs =>
        cases bs with
        | nil => exact ⟨b, rfl⟩
        | cons c cs => rw [distinctLengths, hd] at h; simp at h
    intro r hr
    have hr2 : r.2.length ∈ [b] := by
      rw [← hb]; exact List.mem_dedup.mpr (List.mem_map_of_mem _ hr)
    have hr0 : r0.2.length ∈ [b] := by
      rw [← hb]
      exact List.mem_dedup.mpr (List.mem_map_of_mem _ (List.mem_cons_self _ _))
    rw [List.mem_singleton.mp hr2, List.mem_singleton.mp hr0]
  · intro hall
    rw [distinctLengths, dedup_all_eq _ (by simp) (fun x hx => by
      obtain ⟨r, hr, hxr⟩ := List.mem_map.mp hx
      rw [← hxr]; exact hall r hr)]
    rfl

lemma parse_fasta_empty_iff (lines : List String) :
    parse_fasta (some lines) = .error .emptyInput ↔ rawRecords lines = [] := by
  constructor
  · intro h
    by_contra hne
    rw [parse_fasta, if_neg hne] at h
    by_cases hlen : (distinctLengths (rawRecords lines)).length ≠ 1
    · rw [if_pos hlen] at h; cases h
    · rw [if_neg hlen] at h; cases h
  · intro h
    rw [parse_fasta, if_pos h]

lemma parse_fasta_ok (lines : List String) (hne : rawRecords lines ≠ [])
    (hlen : (distinctLengths (rawRecords lines)).length = 1) :
    parse_fasta (some lines) = .ok (rawRecords lines) := by
  rw [parse_fasta, if_neg hne, if_neg (by omega)]

lemma parse_fasta_unequal (lines : List String) (hne : rawRecords lines ≠ [])
    (hlen : (distinctLengths (rawRecords lines)).length ≠ 1) :
    parse_fasta (some lines) =
      .error (.unequalLength (distinctLengths (rawRecords lines))) := by
  rw [parse_fasta, if_neg hne, if_pos hlen]

/-- C6: the parser fails with `notFound` exactly on a missing file, with
`emptyInput` exactly when no records result, and with `unequalLength`
exactly when the (non-empty) records do not all share the first record's
length — the error then carrying precisely the distinct lengths found
(without duplicates); on any other input it returns the records. -/
theorem parse_fasta_failure_modes (lines : List String) :
    parse_fasta none = Except.error FastaError.notFound ∧
    (parse_fasta (some lines) = .error .emptyInput ↔ rawRecords lines = []) ∧
    (∀ L, parse_fasta (some lines) = .error (.unequalLength L) ↔
      (rawRecords lines ≠ [] ∧
       ¬ (∀ r ∈ rawRecords lines,
            r.2.length = ((rawRecords lines).headD ("", "")).2.length) ∧
       L = distinctLengths (rawRecords lines))) ∧
    ((rawRecords lines ≠ [] ∧
      ∀ r ∈ rawRecords lines,
        r.2.length = ((rawRecords lines).headD ("", "")).2.length) →
      parse_fasta (some lines) = .ok (rawRecords lines)) ∧
    (∀ n, n ∈ distinctLengths (rawRecords lines) ↔
      ∃ r ∈ rawRecords lines, r.2.length = n) ∧
    (distinctLengths (rawRecords lines)).Nodup := by
  refine ⟨rfl, parse_fasta_empty_iff lines, ?_, ?_, ?_, List.nodup_dedup _⟩
  · intro L
    by_cases hne : rawRecords lines = []
    · rw [parse_fasta_empty_iff lines |>.mpr hne]
      constructor
      · intro h; cases h
      · rintro ⟨h, -, -⟩; exact absurd hne h
    · obtain ⟨r0, rest, hcons⟩ := List.exists_cons_of_ne_nil hne
      by_cases hlen : (distinctLengths (rawRecords lines)).length = 1
      · rw [parse_fasta_ok lines hne hlen]
        constructor
        · intro h; cases h
        · rintro ⟨-, hnall, -⟩
          rw [hcons] at hlen
          refine absurd ?_ hnall
          rw [hcons]
          exact (distinct_singleton r0 rest).mp hlen
      · rw [parse_fasta_unequal lines hne hlen]
        constructor
        · intro h
          have hL : distinctLengths (rawRecords lines) = L := by
            have := Except.error.inj h
            exact FastaError.unequalLength.inj this
          refine ⟨hne, ?_, hL.symm⟩
          intro hall
          rw [hcons] at hlen
          refine hlen ((distinct_singleton r0 rest).mpr ?_)
          rw [hcons] at hall
          exact hall
        · rintro ⟨-, -, hL⟩; rw [hL]
  · rintro ⟨hne, hall⟩
    obtain ⟨r0, rest, hcons⟩ := List.exists_cons_of_ne_nil hne
    refine parse_fasta_ok lines hne ?_
    rw [hcons]
    refine (distinct_singleton r0 rest).mpr ?_
    rw [hcons] at hall
    exact hall
  · intro n
    rw [distinctLengths, List.mem_dedup, List.mem_map]

/-- Witness for C6 on a concrete two-record equal-length input. -/
theorem parse_fasta_failure_modes_witness :
    parse_fasta (some [">s1", "AC", ">s2", "GT"]) = .ok [("s1", "AC"), ("s2", "GT")] := by
  have h := (parse_fasta_failure_modes [">s1", "AC", ">s2", "GT"]).2.2.2.1
    ⟨by decide, by decide⟩
  rw [h]
  decide

/-! ## Claim C10: header-only inputs and pre-header garbage -/

/-- The input lines that start a record: non-blank and, once stripped,
beginning with `>`. -/
def headersOf (lines : List String) : List String :=
  lines.filter (fun l => pyStartsWith (pyStrip l) ">")

/-- The records an all-header input produces: one per header line, with the
empty sequence. -/
def hrecsOf (lines : List String) : List (String × String) :=
  (headersOf lines).map (fun l => (headerName (pyStrip l), ""))

lemma blank_not_header {l : String} (hb : pyStrip l = "") :
    pyStartsWith (pyStrip l) ">" = false := by
  rw [hb]; rfl

lemma header_not_blank {l : String} (hh : pyStartsWith (pyStrip l) ">" = true) :
    pyStrip l ≠ "" := by
  intro hcontra; rw [hcontra] at hh; exact absurd hh (by decide)

lemma fastaStep_blank {acc : FastaAcc} {l : String} (hb : pyStrip l = "") :
    fastaStep acc l = acc := by
  rw [fastaStep]; simp only [hb]; rfl

lemma fastaStep_header {acc : FastaAcc} {l : String}
    (hh : pyStartsWith (pyStrip l) ">" = true) :
    fastaStep acc l =
      ⟨some (headerName (pyStrip l)), [], finishFasta acc⟩ := by
  rw [fastaStep]
  simp only [if_neg (header_not_blank hh), hh, if_pos rfl]
  exact if_pos trivial

lemma fastaStep_chunk {acc : FastaAcc} {l : String} (hb : pyStrip l ≠ "")
    (hh : pyStartsWith (pyStrip l) ">" = false) :
    fastaStep acc l = { acc with chunks := acc.chunks ++ [pyStrip l] } := by
  rw [fastaStep]
  simp only [if_neg hb, hh]
  rfl

lemma fold_headers_from_open :
    ∀ lines : List String,
      (∀ l ∈ lines, pyStrip l = "" ∨ pyStartsWith (pyStrip l) ">" = true) →
      ∀ (nm : String) (recs : List (String × String)),
        finishFasta (lines.foldl fastaStep ⟨some nm, [], recs⟩) =
          recs ++ (nm, "") :: hrecsOf lines := by
  intro lines
  induction lines with
  | nil =>
    intro _ nm recs
    simp [finishFasta, hrecsOf, headersOf, joinStrs]
  | cons l rest ih =>
    intro hall nm recs
    have htail := fun l2 hl2 => hall l2 (List.mem_cons_of_mem l hl2)
    rw [List.foldl_cons]
    rcases hall l (List.mem_cons_self l rest) with hb | hh
    · rw [fastaStep_blank hb, ih htail nm recs]
      rw [show hrecsOf (l :: rest) = hrecsOf rest from by
        simp [hrecsOf, headersOf, List.filter_cons, blank_not_header hb]]
    · rw [fastaStep_header hh,
        show finishFasta ⟨some nm, [], recs⟩ = recs ++ [(nm, "")] from rfl,
        ih htail (headerName (pyStrip l)) (recs ++ [(nm, "")])]
      rw [show hrecsOf (l :: rest) =
          (headerName (pyStrip l), "") :: hrecsOf rest from by
        simp [hrecsOf, headersOf, List.filter_cons, hh]]
      simp

lemma rawRecords_headers_only :
    ∀ lines : List String,
      (∀ l ∈ lines, pyStrip l = "" ∨ pyStartsWith (pyStrip l) ">" = true) →
      rawRecords lines = hrecsOf lines := by
  intro lines
  induction lines with
  | nil => intro _; rfl
  | cons l rest ih =>
    intro hall
    have htail := fun l2 hl2 => hall l2 (List.mem_cons_of_mem l hl2)
    rw [rawRecords, List.foldl_cons]
    rcases hall l (List.mem_cons_self l rest) with hb | hh
    · rw [fastaStep_blank hb]
      have hrest : finishFasta (List.foldl fastaStep ⟨none, [], []⟩ rest) =
          hrecsOf rest := ih htail
      rw [hrest]
      rw [show hrecsOf (l :: rest) = hrecsOf rest from by
        simp [hrecsOf, headersOf, List.filter_cons, blank_not_header hb]]
    · rw [fastaStep_header hh,
        show finishFasta (⟨none, [], []⟩ : FastaAcc) = [] from rfl,
        fold_headers_from_open rest htail (headerName (pyStrip l)) []]
      rw [show hrecsOf (l :: rest) =
          (headerName (pyStrip l), "") :: hrecsOf rest from by
        simp [hrecsOf, headersOf, List.filter_cons, hh]]
      rfl

lemma fold_chunks_irrelevant :
    ∀ (lines : List String) (c1 c2 : List String) (recs : List (String × String)),
      finishFasta (lines.foldl fastaStep ⟨none, c1, recs⟩) =
        finishFasta (lines.foldl fastaStep ⟨none, c2, recs⟩) := by
  intro lines
  induction lines with
  | nil => intro c1 c2 recs; rfl
  | cons l rest ih =>
    intro c1 c2 recs
    rw [List.foldl_cons, List.foldl_cons]
    by_cases hb : pyStrip l = ""
    · rw [fastaStep_blank hb, fastaStep_blank hb]
      exact ih c1 c2 recs
    · by_cases hh : pyStartsWith (pyStrip l) ">" = true
      · rw [fastaStep_header hh, fastaStep_header hh,
          show finishFasta ⟨none, c1, recs⟩ = recs from rfl,
          show finishFasta ⟨none, c2, recs⟩ = recs from rfl]
      · rw [fastaStep_chunk hb (by simpa using hh),
          fastaStep_chunk hb (by simpa using hh)]
        exact ih (c1 ++ [pyStrip l]) (c2 ++ [pyStrip l]) recs

lemma fold_pre_no_header :
    ∀ pre : List String,
      (∀ l ∈ pre, pyStartsWith (pyStrip l) ">" = false) →
      ∀ c0 : List String, ∃ c, pre.foldl fastaStep ⟨none, c0, []⟩ = ⟨none, c, []⟩ := by
  intro pre
  induction pre with
  | nil => intro _ c0; exact ⟨c0, rfl⟩
  | cons l rest ih =>
    intro hall c0
    have htail := fun l2 hl2 => hall l2 (List.mem_cons_of_mem l hl2)
    rw [List.foldl_cons]
    by_cases hb : pyStrip l = ""
    · rw [fastaStep_blank hb]; exact ih htail c0
    · rw [fastaStep_chunk hb (hall l (List.mem_cons_self l rest))]
      exact ih htail (c0 ++ [pyStrip l])

/-- C10: an input whose non-blank lines are all headers parses to one record
per header line with the empty sequence (so all lengths are 0 and neither the
empty-input nor the unequal-length error fires); the empty-input error fires
iff there is no header line; and non-blank lines before the first header are
discarded, contributing to no record. -/
theorem fasta_headers_only_and_lead_garbage (lines pre rest : List String) :
    ((∀ l ∈ lines, pyStrip l = "" ∨ pyStartsWith (pyStrip l) ">" = true) →
      rawRecords lines = hrecsOf lines ∧
      (parse_fasta (some lines) = .error .emptyInput ↔ headersOf lines = []) ∧
      (headersOf lines ≠ [] → parse_fasta (some lines) = .ok (hrecsOf lines))) ∧
    ((∀ l ∈ pre, pyStartsWith (pyStrip l) ">" = false) →
      rawRecords (pre ++ rest) = rawRecords rest) := by
  constructor
  · intro hall
    have hraw := rawRecords_headers_only lines hall
    have hiff : rawRecords lines = [] ↔ headersOf lines = [] := by
      rw [hraw, hrecsOf]
      exact List.map_eq_nil
    refine ⟨hraw, (parse_fasta_empty_iff lines).trans hiff, ?_⟩
    intro hne
    have hne2 : rawRecords lines ≠ [] := fun h => hne (hiff.mp h)
    have hzero : ∀ x ∈ (rawRecords lines).map (fun r => r.2.length), x = 0 := by
      intro x hx
      obtain ⟨r, hr, hxr⟩ := List.mem_map.mp hx
      rw [hraw, hrecsOf] at hr
      obtain ⟨h2, -, hh2⟩ := List.mem_map.mp hr
      rw [← hxr, ← hh2]
      rfl
    have hlen : (distinctLengths (rawRecords lines)).length = 1 := by
      rw [distinctLengths, dedup_all_eq _ (by simpa using hne2) hzero]
      rfl
    rw [parse_fasta_ok lines hne2 hlen, hraw]
  · intro hpre
    obtain ⟨c, hc⟩ := fold_pre_no_header pre hpre []
    rw [rawRecords, List.foldl_append, hc]
    exact fold_chunks_irrelevant rest c [] []

/-- Witness for C10: two headers and a pre-header garbage line. -/
theorem fasta_headers_only_witness :
    parse_fasta (some [">h1", ">h2"]) = .ok [("h1", ""), ("h2", "")] ∧
    rawRecords ["junk", ">a", "AC"] = rawRecords [">a", "AC"] :=
  ⟨by
    have h := ((fasta_headers_only_and_lead_garbage [">h1", ">h2"] [] []).1
      (by decide)).2.2 (by decide)
    rw [h]; decide,
   (fasta_headers_only_and_lead_garbage [] ["junk"] [">a", "AC"]).2 (by decide)⟩
